import Mathlib

/-!
Shallow embedding of the `paramspy` parameter-discovery tool:
the Wayback archive client (`core/fetcher.py`), the retry decorator
(`utils/decorators.py`), the SQLite parameter cache
(`paramspy/core/cache.py`) and the CLI orchestrator (`paramspy/cli.py`).
Machine-level effects (network, SQLite, wall-clock, console printing) are
made explicit parameters: the HTTP exchange is an input value, the cache
table is a list of rows threaded through each operation, and the current
time is an `Int` argument.
-/

/-! ## URL host extraction (model of `urllib.parse.urlparse(...).netloc`) -/

/-- Characters allowed in a URL scheme after the leading letter
(`urllib.parse`: letters, digits, `+`, `-`, `.`). -/
def isSchemeChar (c : Char) : Bool :=
  c.isAlphanum || c = '+' || c = '-' || c = '.'

/-- Split a character list at the first `:`; `none` when no colon occurs. -/
def findColonSplit : List Char → Option (List Char × List Char)
  | [] => none
  | c :: rest =>
    if c = ':' then some ([], rest)
    else
      match findColonSplit rest with
      | some (pre, post) => some (c :: pre, post)
      | none => none

/-- A nonempty scheme starting with a letter followed by scheme characters. -/
def validScheme : List Char → Bool
  | [] => false
  | c :: rest => c.isAlpha && rest.all isSchemeChar

/-- Drop a leading `scheme:` prefix when present, as `urlparse` does. -/
def removeScheme (cs : List Char) : List Char :=
  match findColonSplit cs with
  | some (pre, post) => if validScheme pre then post else cs
  | none => cs

/-- The network-location component: after `//`, up to the next `/`, `?` or
`#`; empty when the URL has no authority component. -/
def netlocOf (cs : List Char) : List Char :=
  match removeScheme cs with
  | '/' :: '/' :: rest => rest.takeWhile (fun c => c ≠ '/' && c ≠ '?' && c ≠ '#')
  | _ => []

/-- `urlparse(url).netloc` as a string function. -/
def netloc (url : String) : String :=
  String.mk (netlocOf url.toList)

/-! ## Python string primitives over character lists -/

/-- `suffix` is a suffix of `s` (Python `s.endswith(suffix)`). -/
def endsWithL (s suffix : List Char) : Bool :=
  s.drop (s.length - suffix.length) == suffix

/-- `pat` is a prefix of `s`. -/
def isPrefixL : List Char → List Char → Bool
  | [], _ => true
  | _ :: _, [] => false
  | p :: ps, c :: cs => p == c && isPrefixL ps cs

/-- Split at the first occurrence of `sep`: the part before it and, when
`sep` occurs, the part after it. -/
def breakOnChar (sep : Char) : List Char → List Char × Option (List Char)
  | [] => ([], none)
  | c :: rest =>
    if c = sep then ([], some rest)
    else
      let r := breakOnChar sep rest
      (c :: r.1, r.2)

/-- Split on every occurrence of `sep` (Python `s.split(sep)`). -/
def splitOnCharAux (sep : Char) : List Char → List Char → List (List Char)
  | [], acc => [acc.reverse]
  | c :: rest, acc =>
    if c = sep then acc.reverse :: splitOnCharAux sep rest []
    else splitOnCharAux sep rest (c :: acc)

/-- Python `s.split(sep)` for a one-character separator. -/
def splitOnChar (sep : Char) (s : List Char) : List (List Char) :=
  splitOnCharAux sep s []

/-- Python `s.replace(pat, repl)` for a nonempty `pat`: replace every
non-overlapping occurrence, scanning left to right. The `Nat` fuel is
the length of the scanned list, which bounds the recursion. -/
def replaceFuel (pat repl : List Char) : Nat → List Char → List Char
  | _, [] => []
  | 0, s => s
  | fuel + 1, c :: cs =>
    if pat ≠ [] && isPrefixL pat (c :: cs) then
      repl ++ replaceFuel pat repl fuel ((c :: cs).drop pat.length)
    else c :: replaceFuel pat repl fuel cs

/-- Python `s.replace(pat, repl)`. -/
def replaceL (pat repl s : List Char) : List Char :=
  replaceFuel pat repl s.length s

/-- Python `s.strip()`: leading and trailing whitespace removed. -/
def trimL (s : List Char) : List Char :=
  ((s.dropWhile Char.isWhitespace).reverse.dropWhile Char.isWhitespace).reverse

/-! ## Archive client (`core/fetcher.py`, `fetch_wayback_urls`) -/

/-- Cache validity window from `cache.py`: 30 days in seconds. -/
def CACHE_TTL : Int := 30 * 24 * 60 * 60

/-- One data row of the decoded CDX JSON body: either a row whose first
element is a URL string, or a row of the wrong shape, where evaluating
`row[0]` raises (caught by the fetcher's generic `except`). -/
inductive RowVal
  | strRow (s : String)
  | badRow
deriving DecidableEq

/-- The outcome of the HTTP exchange inside `fetch_wayback_urls`: the
request either fails to connect, or yields a response with a status code
and a body that decodes to a JSON row list (`none` when `response.json()`
raises). -/
inductive FetchInput
  | connectError
  | response (status : Nat) (body : Option (List RowVal))
deriving DecidableEq

/-- `httpx.Response.is_success`: a 2xx status; `raise_for_status` raises
`HTTPStatusError` exactly when this is false. -/
def is2xx (status : Nat) : Bool :=
  200 ≤ status && status < 300

/-- `set.add`: append the element unless already present (the Python `set`
is modelled as a duplicate-free list in insertion order). -/
def insertIfAbsent (urls : List String) (u : String) : List String :=
  if urls.contains u then urls else urls ++ [u]

/-- The fetcher's domain filter, line 55 of `core/fetcher.py`:
`parsed_url.netloc.endswith(domain) or parsed_url.netloc == domain`. -/
def wayback_accepts (domain url : String) : Bool :=
  endsWithL (netlocOf url.toList) domain.toList || netlocOf url.toList == domain.toList

/-- The row loop of `fetch_wayback_urls`: accepted URLs are added to the
set; a row of the wrong shape raises at `row[0]`, which aborts the loop
(the exception is caught outside). Returns the accumulated set and
whether an exception was caught. -/
def processRows (domain : String) : List RowVal → List String → List String × Bool
  | [], urls => (urls, false)
  | .strRow u :: rest, urls =>
    processRows domain rest (if wayback_accepts domain u then insertIfAbsent urls u else urls)
  | .badRow :: _, urls => (urls, true)

/-- `fetch_wayback_urls` over an explicit HTTP outcome: connection
failures, non-2xx statuses (`raise_for_status`), JSON decode failures and
row-shape failures are all caught; the function returns the URL set
accumulated so far together with a flag recording whether an exception
was caught (the code then logs a diagnostic). A body of at most one row
(header only) returns the empty set. -/
def fetch_wayback_urls (domain : String) (input : FetchInput) : List String × Bool :=
  match input with
  | .connectError => ([], true)
  | .response status body =>
    if is2xx status then
      match body with
      | none => ([], true)
      | some data =>
        if data.length ≤ 1 then ([], false)
        else processRows domain (data.drop 1) []
    else ([], true)

/-- `r` is a row holding a URL string (its `row[0]` does not raise). -/
def isStrRow : RowVal → Bool
  | .strRow _ => true
  | .badRow => false

/-- Folding the accept-and-insert step over rows that are all URL rows:
the value `processRows` computes on the prefix before the first bad row. -/
def collectAccepted (domain : String) (rows : List RowVal) (urls : List String) : List String :=
  rows.foldl
    (fun acc r =>
      match r with
      | .strRow u => if wayback_accepts domain u then insertIfAbsent acc u else acc
      | .badRow => acc)
    urls

/-! ## Retry decorator (`utils/decorators.py`, `retry_on_failure`) -/

/-- The exception kinds distinguished by the decorator: the default
retryable tuple `(HTTPStatusError, ConnectError, TimeoutError)` plus
everything else. -/
inductive ExcKind
  | connectError
  | httpStatusError
  | timeoutError
  | otherExc
deriving DecidableEq

/-- Membership in the decorator's default `exceptions` tuple. -/
def retryableExc : ExcKind → Bool
  | .connectError => true
  | .httpStatusError => true
  | .timeoutError => true
  | .otherExc => false

/-- What a single invocation of the wrapped operation does: return a
value or raise an exception of some kind. -/
inductive AttemptResult (T : Type)
  | ok (v : T)
  | exc (k : ExcKind)
deriving DecidableEq

/-- What the wrapper as a whole does: return a value, let an exception
propagate, or fall off the loop returning `None` (only when the attempt
budget is zero). -/
inductive RetryOutcome (T : Type)
  | ret (v : T)
  | raised (k : ExcKind)
  | retNone
deriving DecidableEq

/-- The `for attempt in range(max_retries)` loop: `i` is the current
attempt index, the `Nat` argument the number of attempts left. A
retryable exception on a non-final attempt sleeps and retries; on the
final attempt it is re-raised; a non-retryable exception is not caught
and propagates at once. The second component counts invocations of the
wrapped operation. -/
def retryAux {T : Type} (op : Nat → AttemptResult T) (i : Nat) : Nat → RetryOutcome T × Nat
  | 0 => (.retNone, 0)
  | remaining + 1 =>
    match op i with
    | .ok v => (.ret v, 1)
    | .exc k =>
      if retryableExc k then
        if remaining = 0 then (.raised k, 1)
        else
          let r := retryAux op (i + 1) remaining
          (r.1, r.2 + 1)
      else (.raised k, 1)

/-- `retry_on_failure(max_retries)` applied to an operation whose attempt
number `i` behaves as `op i`. -/
def retry_on_failure {T : Type} (maxRetries : Nat) (op : Nat → AttemptResult T) :
    RetryOutcome T × Nat :=
  retryAux op 0 maxRetries

/-! ## Cache store (`paramspy/core/cache.py`, class `ParamCache`) -/

/-- One row of the `params` table: `(domain TEXT PRIMARY KEY,
params_json TEXT NOT NULL, timestamp INTEGER NOT NULL)`. The
`json.dumps`/`json.loads` round trip on a list of strings is the
identity, so the row stores the list itself. -/
structure CacheRow where
  domain : String
  params_json : List String
  timestamp : Int
deriving DecidableEq

/-- The `params` table. -/
abbrev Store : Type := List CacheRow

/-- `SELECT ... FROM params WHERE domain = ?` followed by `fetchone()`. -/
def dbLookup (store : Store) (domain : String) : Option CacheRow :=
  store.find? (fun r => r.domain == domain)

/-- `ParamCache.delete`: `DELETE FROM params WHERE domain = ?`. -/
def cacheDelete (store : Store) (domain : String) : Store :=
  store.filter (fun r => !(r.domain == domain))

/-- `ParamCache.get` at wall-clock time `now`: a stored row is returned
while `now - timestamp < CACHE_TTL`; an expired row is deleted and the
call reports absent; a missing row reports absent. Returns the result
together with the table after any side effect. -/
def cacheGet (store : Store) (domain : String) (now : Int) : Option (List String) × Store :=
  match dbLookup store domain with
  | some r =>
    if now - r.timestamp < CACHE_TTL then (some r.params_json, store)
    else (none, cacheDelete store domain)
  | none => (none, store)

/-- `ParamCache.set`: `INSERT OR REPLACE` keyed on the `domain` primary
key — the conflicting row is removed and the new row stored with the
current timestamp. -/
def cacheSet (store : Store) (domain : String) (params : List String) (now : Int) : Store :=
  cacheDelete store domain ++ [⟨domain, params, now⟩]

/-- `ParamCache.clear_all`: `SELECT COUNT(*)` then `DELETE FROM params`;
returns the count and the emptied table. -/
def cacheClearAll (store : Store) : Nat × Store :=
  (store.length, [])

/-- `ParamCache._time_remaining`: human-readable time until expiry. -/
def time_remaining (timestamp now : Int) : String :=
  let remaining := timestamp + CACHE_TTL - now
  if remaining ≤ 0 then "Expired"
  else
    let days := remaining / (24 * 3600)
    let hours := remaining % (24 * 3600) / 3600
    if 0 < days then toString days ++ " days, " ++ toString hours ++ " hours"
    else if 0 < hours then toString hours ++ " hours"
    else "Less than 1 hour"

/-- `ParamCache.get_status`: one record per row with the domain, the raw
creation timestamp (`strftime` formatting abstracted to the timestamp
itself) and the formatted remaining TTL. -/
def get_status (store : Store) (now : Int) : List (String × Int × String) :=
  store.map (fun r => (r.domain, r.timestamp, time_remaining r.timestamp now))

/-- The table invariant: at most one row per domain. -/
def uniqueDomains (store : Store) : Prop :=
  (store.map (fun r => r.domain)).Nodup

instance (store : Store) : Decidable (uniqueDomains store) := by
  unfold uniqueDomains
  infer_instance

/-! ## Parameter extractor (`paramspy/core/parser.py`, absent from the
sources; modelled from spec §4.3) -/

/-- Value of a hexadecimal digit character, `none` otherwise (code
points: digits 48–57, lowercase 97–102, uppercase 65–70). -/
def hexDigitVal (c : Char) : Option Nat :=
  let n := c.toNat
  if 48 ≤ n ∧ n ≤ 57 then some (n - 48)
  else if 97 ≤ n ∧ n ≤ 102 then some (n - 87)
  else if 65 ≤ n ∧ n ≤ 70 then some (n - 55)
  else none

/-- Percent-decoding: `%XY` with two hex digits becomes the coded
character; anything else is kept verbatim. -/
def percentDecode : List Char → List Char
  | [] => []
  | '%' :: a :: b :: rest =>
    match hexDigitVal a, hexDigitVal b with
    | some x, some y => Char.ofNat (16 * x + y) :: percentDecode rest
    | _, _ => '%' :: percentDecode (a :: b :: rest)
  | c :: rest => c :: percentDecode rest

/-- Standard query-string decoding of a token: `+` means space, then
percent-decode. -/
def decodeToken (s : List Char) : String :=
  String.mk (percentDecode (s.map (fun c => if c = '+' then ' ' else c)))

/-- The URL with its fragment (everything after the first `#`) removed. -/
def stripFragment (url : List Char) : List Char :=
  (breakOnChar '#' url).1

/-- The query component of a URL: everything after the first `?` once the
fragment is removed; `none` when the URL has no query component. -/
def queryOf (url : String) : Option (List Char) :=
  (breakOnChar '?' (stripFragment url.toList)).2

/-- Deduplicate keeping first occurrences (a Python `set` built up in
insertion order). -/
def dedupList (xs : List String) : List String :=
  xs.foldl insertIfAbsent []

/-- The decoded keys of a query string: `&`-separated `key=value` pairs,
the key being the part before the first `=`; empty segments contribute
nothing. -/
def queryKeys (q : List Char) : List String :=
  (splitOnChar '&' q).filterMap (fun pair =>
    let k := (breakOnChar '=' pair).1
    if k = [] then none else some (decodeToken k))

/-- Modelled from the spec: `extract_params_from_url` from
`paramspy/core/parser.py`, which is absent from the sources. Spec §4.3:
parse the URL's query component into `key=value` pairs with standard
query-string decoding and return the set of distinct keys; a URL with an
absent or unparseable query component yields the empty set without
raising. -/
def extract_params_from_url (url : String) : List String :=
  match queryOf url with
  | none => []
  | some q => dedupList (queryKeys q)

/-- Modelled from the spec: `merge_and_filter_all_params` from
`paramspy/core/parser.py`, which is absent from the sources. Spec §4.4:
the union of builtin and extracted names, deduplicated, builtin-list
order first then newly-discovered names in first-seen order. -/
def merge_and_filter_all_params (extracted builtin : List String) : List String :=
  dedupList (builtin ++ extracted)

/-! ## Builtin wordlist loader (`paramspy/cli.py`, `_load_builtin_params`) -/

/-- The state of the packaged `builtin_params.json` file. -/
inductive WordlistFile
  | absent
  | invalidJson
  | valid (params : List String)
deriving DecidableEq

/-- Failures `open` + `json.load` can raise on that file. -/
inductive LoadFail
  | fileNotFound
  | jsonDecodeError
deriving DecidableEq

/-- The body of `_load_builtin_params` before exception handling:
`open(DATA_PATH)` raises `FileNotFoundError` when the file is absent and
`json.load` raises `JSONDecodeError` on malformed contents. -/
def readBuiltinFile : WordlistFile → Except LoadFail (List String)
  | .absent => .error .fileNotFound
  | .invalidJson => .error .jsonDecodeError
  | .valid ps => .ok ps

/-- `_load_builtin_params`: both failure kinds are caught, an error line
is printed (the `Bool` flag) and the empty list returned. -/
def load_builtin_params (f : WordlistFile) : List String × Bool :=
  match readBuiltinFile f with
  | .ok ps => (ps, false)
  | .error _ => ([], true)

/-! ## Scan orchestrator (`paramspy/cli.py`, command `scan`) -/

/-- `domain.lower().strip().replace("http://", "").replace("https://", "")`. -/
def normalizeDomain (d : String) : String :=
  String.mk (replaceL "https://".toList []
    (replaceL "http://".toList [] (trimL (d.toList.map Char.toLower))))

/-- Step 3 of `scan`: the union over all fetched URLs of the extracted
parameter names (`extracted_set.update(...)`), as a duplicate-free list. -/
def extractAll (urls : List String) : List String :=
  urls.foldl (fun acc u => (extract_params_from_url u).foldl insertIfAbsent acc) []

/-- How a `scan` invocation ends: `typer.Exit(code=...)`, the printed
final list, or the "No high-signal parameters found" note. -/
inductive ScanOutcome
  | exitWith (code : Nat)
  | printedList (params : List String)
  | printedEmptyNote
deriving DecidableEq

/-- Steps 2–6 of `scan` when the cache did not supply a result: zero
fetched URLs exits with code 1; otherwise parameters are extracted,
merged with the builtin list, stored in the cache and printed. The final
`Bool` records that a fetch was performed. -/
def scanFetchPath (store1 : Store) (domain : String) (fetched : List String)
    (wordlist : WordlistFile) (now : Int) : ScanOutcome × Store × Bool :=
  if fetched.isEmpty then (.exitWith 1, store1, true)
  else
    let extracted := extractAll fetched
    let builtin := (load_builtin_params wordlist).1
    let finalParams := merge_and_filter_all_params extracted builtin
    let store2 := cacheSet store1 domain finalParams now
    (if finalParams.isEmpty then .printedEmptyNote else .printedList finalParams, store2, true)

/-- The `scan` command over an explicit environment: the cache table, the
URL set the Wayback fetch would return, the wordlist file state and the
current time. `if cached_params:` is Python truthiness, so only a
non-empty cached list bypasses the fetch path. -/
def scan (store : Store) (rawDomain : String) (fetched : List String)
    (wordlist : WordlistFile) (now : Int) : ScanOutcome × Store × Bool :=
  let domain := normalizeDomain rawDomain
  let gotten := cacheGet store domain now
  match gotten.1 with
  | some ps =>
    if ps.isEmpty then scanFetchPath gotten.2 domain fetched wordlist now
    else (if ps.isEmpty then .printedEmptyNote else .printedList ps, gotten.2, false)
  | none => scanFetchPath gotten.2 domain fetched wordlist now

theorem processRows_eq_collect (domain : String) :
    ∀ (rows : List RowVal) (urls : List String),
      processRows domain rows urls =
        (collectAccepted domain (rows.takeWhile isStrRow) urls,
         !(rows.dropWhile isStrRow).isEmpty) := by
  intro rows
  induction rows with
  | nil => intro urls; rfl
  | cons r rest ih =>
    intro urls
    cases r with
    | strRow u =>
      simp only [processRows, List.takeWhile, List.dropWhile, isStrRow]
      rw [ih]
      rfl
    | badRow =>
      simp only [processRows, List.takeWhile, List.dropWhile, isStrRow]
      rfl

/-- C1: the spec requires every URL accepted by `fetch_wayback_urls` for
target domain `D` to have a host equal to `D` or ending in `"." ++ D`,
and in particular a row with host `notexample.com` to be rejected for
target `example.com`. The code's filter
`netloc.endswith(domain) or netloc == domain` accepts that very row: the
host `notexample.com` is neither `example.com` nor ends in
`.example.com`, yet the URL is accepted into the returned set. -/
theorem c1_host_filter_accepts_foreign_host :
    wayback_accepts "example.com" "https://notexample.com/c?z=3" = true
  ∧ netloc "https://notexample.com/c?z=3" = "notexample.com"
  ∧ ¬("notexample.com" = "example.com")
  ∧ endsWithL "notexample.com".toList ".example.com".toList = false
  ∧ (fetch_wayback_urls "example.com"
      (.response 200 (some [.strRow "original", .strRow "https://notexample.com/c?z=3"]))).1
      = ["https://notexample.com/c?z=3"] := by
  exact ⟨by decide, by decide, by decide, by decide, by decide⟩

/-- C2 counterexample: a 200 response whose third row has the wrong
shape raises inside the row loop after one URL was already accepted; the
caught-exception flag is set, yet the returned set is the non-empty
singleton rather than the empty set the claim requires. -/
theorem c2_partial_result_on_row_exception :
    fetch_wayback_urls "example.com"
      (.response 200 (some [.strRow "original", .strRow "https://example.com/a?x=1", .badRow]))
      = (["https://example.com/a?x=1"], true)
  ∧ (["https://example.com/a?x=1"] : List String) ≠ [] := by
  exact ⟨by decide, by decide⟩

/-- C2 (amended): `fetch_wayback_urls` never propagates a failure; a
connection failure, a non-2xx response or a body that fails to decode
yields the empty set, and an exception raised while processing row `k`
yields the URLs accepted from the rows before `k` — possibly a non-empty
partial set. -/
theorem c2_fetch_failures_swallowed (domain : String) :
    fetch_wayback_urls domain .connectError = ([], true)
  ∧ (∀ (status : Nat) (body : Option (List RowVal)), is2xx status = false →
      fetch_wayback_urls domain (.response status body) = ([], true))
  ∧ (∀ (status : Nat), is2xx status = true →
      fetch_wayback_urls domain (.response status none) = ([], true))
  ∧ (∀ (status : Nat) (data : List RowVal), is2xx status = true → 1 < data.length →
      fetch_wayback_urls domain (.response status (some data)) =
        (collectAccepted domain ((data.drop 1).takeWhile isStrRow) [],
         !((data.drop 1).dropWhile isStrRow).isEmpty)) := by
  refine ⟨rfl, ?_, ?_, ?_⟩
  · intro status body h
    simp [fetch_wayback_urls, h]
  · intro status h
    simp [fetch_wayback_urls, h]
  · intro status data h hlen
    simp only [fetch_wayback_urls, h, if_true]
    rw [if_neg (by omega)]
    exact processRows_eq_collect domain (data.drop 1) []

/-- Witness for the amended C2 at concrete inputs: a connection failure,
a 404 response, a 200 response with an undecodable body, and a 200
response whose second data row is malformed. -/
theorem c2_fetch_failures_swallowed_witness :
    fetch_wayback_urls "example.com" .connectError = ([], true)
  ∧ fetch_wayback_urls "example.com" (.response 404 (some [])) = ([], true)
  ∧ fetch_wayback_urls "example.com" (.response 200 none) = ([], true)
  ∧ fetch_wayback_urls "example.com"
      (.response 200 (some [.strRow "original", .strRow "https://example.com/a?x=1", .badRow]))
      = (collectAccepted "example.com"
          (([RowVal.strRow "original", RowVal.strRow "https://example.com/a?x=1",
             RowVal.badRow].drop 1).takeWhile isStrRow) [],
         !(([RowVal.strRow "original", RowVal.strRow "https://example.com/a?x=1",
             RowVal.badRow].drop 1).dropWhile isStrRow).isEmpty) := by
  obtain ⟨h1, h2, h3, h4⟩ := c2_fetch_failures_swallowed "example.com"
  exact ⟨h1, h2 404 (some []) (by decide), h3 200 (by decide),
    h4 200 [.strRow "original", .strRow "https://example.com/a?x=1", .badRow]
      (by decide) (by decide)⟩

/-- A concrete store with five rows, for the `clear_all` example. -/
def fiveEntryStore : Store :=
  [⟨"a.com", ["p"], 0⟩, ⟨"b.com", [], 1⟩, ⟨"c.com", ["q", "r"], 2⟩,
   ⟨"d.com", [], 3⟩, ⟨"e.com", ["s"], 4⟩]

/-- C7: `clear_all` returns the number of stored entries and removes
every entry: afterwards the table is empty, `get_status` enumerates
nothing and no domain resolves; on a store with 5 entries it returns 5. -/
theorem c7_clear_all_counts_and_empties (store : Store) (now : Int) (d : String) :
    (cacheClearAll store).1 = store.length
  ∧ (cacheClearAll store).2 = []
  ∧ get_status (cacheClearAll store).2 now = []
  ∧ dbLookup (cacheClearAll store).2 d = none
  ∧ (cacheClearAll fiveEntryStore).1 = 5 := by
  exact ⟨rfl, rfl, rfl, rfl, rfl⟩

/-- C8: loading the builtin wordlist from an absent file or a file that
is not valid JSON raises inside the loader body, the failure is caught, a
warning is printed (the flag) and the empty wordlist is returned — the
loader is total, so no exception reaches its caller; a valid file loads
its contents with no warning. -/
theorem c8_wordlist_load_degrades (ps : List String) :
    load_builtin_params .absent = ([], true)
  ∧ load_builtin_params .invalidJson = ([], true)
  ∧ readBuiltinFile .absent = .error .fileNotFound
  ∧ readBuiltinFile .invalidJson = .error .jsonDecodeError
  ∧ load_builtin_params (.valid ps) = (ps, false) := by
  exact ⟨rfl, rfl, rfl, rfl, rfl⟩

theorem retryAux_all_retryable_fail {T : Type} (op : Nat → AttemptResult T) :
    ∀ (r i : Nat), 1 ≤ r →
      (∀ j, j < r → ∃ k, op (i + j) = .exc k ∧ retryableExc k = true) →
      ∃ k, op (i + (r - 1)) = .exc k ∧ retryAux op i r = (.raised k, r) := by
  intro r
  induction r with
  | zero => intro i h; omega
  | succ r2 ih =>
    intro i _ h
    obtain ⟨k0, hk0, hr0⟩ := h 0 (by omega)
    rw [Nat.add_zero] at hk0
    by_cases hz : r2 = 0
    · subst hz
      refine ⟨k0, by simpa using hk0, ?_⟩
      simp [retryAux, hk0, hr0]
    · obtain ⟨k, hk, hrec⟩ := ih (i + 1) (by omega) (by
        intro j hj
        have := h (j + 1) (by omega)
        simpa [Nat.add_assoc, Nat.add_comm 1 j] using this)
      refine ⟨k, ?_, ?_⟩
      · have : i + 1 + (r2 - 1) = i + (r2 + 1 - 1) := by omega
        rwa [this] at hk
      · have hstep : retryAux op i (r2 + 1) =
            ((retryAux op (i + 1) r2).1, (retryAux op (i + 1) r2).2 + 1) := by
          simp only [retryAux, hk0, hr0, if_true]
          rw [if_neg hz]
        rw [hstep, hrec]

theorem retryAux_prefix_then_ok {T : Type} (op : Nat → AttemptResult T) (v : T) :
    ∀ (m i r : Nat), m < r →
      (∀ j, j < m → ∃ k, op (i + j) = .exc k ∧ retryableExc k = true) →
      op (i + m) = .ok v →
      retryAux op i r = (.ret v, m + 1) := by
  intro m
  induction m with
  | zero =>
    intro i r hr _ hok
    rw [Nat.add_zero] at hok
    cases r with
    | zero => omega
    | succ r2 => simp [retryAux, hok]
  | succ m2 ih =>
    intro i r hr h hok
    obtain ⟨k0, hk0, hr0⟩ := h 0 (by omega)
    rw [Nat.add_zero] at hk0
    cases r with
    | zero => omega
    | succ r2 =>
      simp only [retryAux, hk0, hr0, if_true]
      rw [if_neg (by omega)]
      have hrec := ih (i + 1) r2 (by omega) (by
          intro j hj
          have := h (j + 1) (by omega)
          simpa [Nat.add_assoc, Nat.add_comm 1 j] using this)
        (by rw [show i + 1 + m2 = i + (m2 + 1) by omega]; exact hok)
      simp [hrec]

theorem retryAux_prefix_then_fatal {T : Type} (op : Nat → AttemptResult T) (k : ExcKind) :
    ∀ (m i r : Nat), m < r →
      (∀ j, j < m → ∃ k2, op (i + j) = .exc k2 ∧ retryableExc k2 = true) →
      op (i + m) = .exc k → retryableExc k = false →
      retryAux op i r = (.raised k, m + 1) := by
  intro m
  induction m with
  | zero =>
    intro i r hr _ hexc hfatal
    rw [Nat.add_zero] at hexc
    cases r with
    | zero => omega
    | succ r2 => simp [retryAux, hexc, hfatal]
  | succ m2 ih =>
    intro i r hr h hexc hfatal
    obtain ⟨k0, hk0, hr0⟩ := h 0 (by omega)
    rw [Nat.add_zero] at hk0
    cases r with
    | zero => omega
    | succ r2 =>
      simp only [retryAux, hk0, hr0, if_true]
      rw [if_neg (by omega)]
      have hrec := ih (i + 1) r2 (by omega) (by
          intro j hj
          have := h (j + 1) (by omega)
          simpa [Nat.add_assoc, Nat.add_comm 1 j] using this)
        (by rw [show i + 1 + m2 = i + (m2 + 1) by omega]; exact hexc) hfatal
      simp [hrec]

/-- C3: the retry wrapper with attempt budget `N`. If every one of the
`N` attempts raises a retryable exception, the final exception is
re-raised after exactly `N` invocations. If some attempt raises a
non-retryable exception after retryable failures, it propagates at once
with no further invocation. If some attempt succeeds with `v` after
retryable failures, the wrapper returns `v`. -/
theorem c3_retry_semantics {T : Type} (N : Nat) (op : Nat → AttemptResult T) :
    (1 ≤ N → (∀ j, j < N → ∃ k, op j = .exc k ∧ retryableExc k = true) →
      ∃ k, op (N - 1) = .exc k ∧ retry_on_failure N op = (.raised k, N))
  ∧ (∀ (i : Nat) (k : ExcKind), i < N →
      (∀ j, j < i → ∃ k2, op j = .exc k2 ∧ retryableExc k2 = true) →
      op i = .exc k → retryableExc k = false →
      retry_on_failure N op = (.raised k, i + 1))
  ∧ (∀ (i : Nat) (v : T), i < N →
      (∀ j, j < i → ∃ k2, op j = .exc k2 ∧ retryableExc k2 = true) →
      op i = .ok v →
      retry_on_failure N op = (.ret v, i + 1)) := by
  refine ⟨?_, ?_, ?_⟩
  · intro hN h
    have := retryAux_all_retryable_fail op N 0 hN (by simpa using h)
    simpa [retry_on_failure] using this
  · intro i k hi h hexc hfatal
    have := retryAux_prefix_then_fatal op k i 0 N hi (by simpa using h)
      (by simpa using hexc) hfatal
    simpa [retry_on_failure] using this
  · intro i v hi h hok
    have := retryAux_prefix_then_ok op v i 0 N hi (by simpa using h)
      (by simpa using hok)
    simpa [retry_on_failure] using this

/-- Witness for C3 at budget 3: an always-timing-out operation raises
after exactly 3 attempts; a non-retryable failure propagates after 1
attempt; an operation that succeeds on its second attempt returns its
value after 2 attempts. -/
theorem c3_retry_semantics_witness :
    (∃ k, (fun (_ : Nat) => AttemptResult.exc (T := Nat) ExcKind.timeoutError) (3 - 1) = .exc k ∧
      retry_on_failure 3 (fun (_ : Nat) => AttemptResult.exc (T := Nat) ExcKind.timeoutError)
        = (.raised k, 3))
  ∧ retry_on_failure 3 (fun (_ : Nat) => AttemptResult.exc (T := Nat) ExcKind.otherExc)
      = (.raised .otherExc, 1)
  ∧ retry_on_failure 3
      (fun (i : Nat) => if i = 0 then AttemptResult.exc (T := Nat) ExcKind.connectError else .ok 7)
      = (.ret 7, 2) := by
  refine ⟨?_, ?_, ?_⟩
  · exact (c3_retry_semantics 3 _).1 (by omega) (fun j hj => ⟨.timeoutError, rfl, rfl⟩)
  · exact (c3_retry_semantics 3 _).2.1 0 .otherExc (by omega) (fun j hj => absurd hj (by omega))
      rfl rfl
  · exact (c3_retry_semantics 3 _).2.2 1 7 (by omega)
      (fun j hj => ⟨.connectError, by
        have : j = 0 := by omega
        subst this
        rfl, rfl⟩)
      rfl

theorem dbLookup_delete (s : Store) (d : String) : dbLookup (cacheDelete s d) d = none := by
  unfold dbLookup cacheDelete
  rw [List.find?_eq_none]
  intro r hr
  have := (List.mem_filter.mp hr).2
  simp only [Bool.not_eq_eq_eq_not, Bool.not_true] at this
  simp [this]

theorem dbLookup_set (s : Store) (d : String) (ps : List String) (now : Int) :
    dbLookup (cacheSet s d ps now) d = some ⟨d, ps, now⟩ := by
  unfold cacheSet dbLookup
  rw [List.find?_append]
  have h1 : (cacheDelete s d).find? (fun r => r.domain == d) = none :=
    dbLookup_delete s d
  rw [h1]
  simp [List.find?]

/-- C4: `get` on a domain stored with list `L` at time `T`, called at
time `t`: while `t - T < CACHE_TTL` it returns `L` and leaves the store
untouched; once `CACHE_TTL ≤ t - T` it reports absent and the stale row
is gone from the resulting store; `get` on a domain with no row reports
absent and changes nothing. -/
theorem c4_cache_get_ttl (store : Store) (d : String) (L : List String) (T t : Int)
    (hrow : dbLookup store d = some ⟨d, L, T⟩) :
    (t - T < CACHE_TTL → cacheGet store d t = (some L, store))
  ∧ (CACHE_TTL ≤ t - T →
      (cacheGet store d t).1 = none ∧ dbLookup (cacheGet store d t).2 d = none)
  ∧ (∀ (s : Store) (d2 : String) (t2 : Int),
      dbLookup s d2 = none → cacheGet s d2 t2 = (none, s)) := by
  refine ⟨?_, ?_, ?_⟩
  · intro h
    simp only [cacheGet, hrow]
    rw [if_pos h]
  · intro h
    simp only [cacheGet, hrow]
    rw [if_neg (by omega)]
    exact ⟨rfl, dbLookup_delete store d⟩
  · intro s d2 t2 h
    simp [cacheGet, h]

/-- Witness for C4: a row for `example.com` written at time 0 is
returned at `t = 2591999` (one second before the 30-day TTL), reported
absent and deleted at `t = 2592000`, and a lookup on an empty store
reports absent. -/
theorem c4_cache_get_ttl_witness :
    cacheGet [CacheRow.mk "example.com" ["a"] 0] "example.com" 2591999
      = (some ["a"], [CacheRow.mk "example.com" ["a"] 0])
  ∧ (cacheGet [CacheRow.mk "example.com" ["a"] 0] "example.com" 2592000).1 = none
  ∧ dbLookup (cacheGet [CacheRow.mk "example.com" ["a"] 0] "example.com" 2592000).2
      "example.com" = none
  ∧ cacheGet [] "example.com" 0 = (none, []) := by
  refine ⟨?_, ?_, ?_, ?_⟩
  · exact (c4_cache_get_ttl [CacheRow.mk "example.com" ["a"] 0] "example.com" ["a"] 0
      2591999 (by decide)).1 (by decide)
  · exact ((c4_cache_get_ttl [CacheRow.mk "example.com" ["a"] 0] "example.com" ["a"] 0
      2592000 (by decide)).2.1 (by decide)).1
  · exact ((c4_cache_get_ttl [CacheRow.mk "example.com" ["a"] 0] "example.com" ["a"] 0
      2592000 (by decide)).2.1 (by decide)).2
  · exact (c4_cache_get_ttl [CacheRow.mk "example.com" ["a"] 0] "example.com" ["a"] 0
      0 (by decide)).2.2 [] "example.com" 0 (by decide)

theorem uniqueDomains_delete (s : Store) (d : String) (h : uniqueDomains s) :
    uniqueDomains (cacheDelete s d) := by
  unfold uniqueDomains cacheDelete
  exact ((List.filter_sublist _).map _).nodup h

theorem uniqueDomains_set (s : Store) (d : String) (ps : List String) (now : Int)
    (h : uniqueDomains s) : uniqueDomains (cacheSet s d ps now) := by
  unfold uniqueDomains cacheSet
  rw [List.map_append, List.nodup_append]
  refine ⟨uniqueDomains_delete s d h, List.nodup_singleton _, ?_⟩
  intro x hx hx2
  simp only [List.map_cons, List.map_nil, List.mem_singleton] at hx2
  subst hx2
  obtain ⟨r, hr, hrd⟩ := List.mem_map.mp hx
  have hfilt := (List.mem_filter.mp hr).2
  simp only [Bool.not_eq_eq_eq_not, Bool.not_true] at hfilt
  simp [hrd] at hfilt

theorem uniqueDomains_get (s : Store) (d : String) (t : Int) (h : uniqueDomains s) :
    uniqueDomains (cacheGet s d t).2 := by
  unfold cacheGet
  split
  · split
    · exact h
    · exact uniqueDomains_delete s d h
  · exact h

/-- C6: at most one row per domain is an invariant of the store: it is
preserved by `set`, `delete`, `get` (including its expiry side effect)
and `clear_all`; and `set` upserts — after `set(d, ps)` at time `now`
the row for `d` is exactly `⟨d, ps, now⟩` (timestamp reset to the set
time), so a fresh `get` observes the new list. -/
theorem c6_cache_upsert_unique (store : Store) (d : String) (ps : List String) (now t : Int)
    (h : uniqueDomains store) :
    uniqueDomains (cacheSet store d ps now)
  ∧ uniqueDomains (cacheDelete store d)
  ∧ uniqueDomains (cacheGet store d t).2
  ∧ uniqueDomains (cacheClearAll store).2
  ∧ dbLookup (cacheSet store d ps now) d = some ⟨d, ps, now⟩
  ∧ (t - now < CACHE_TTL → (cacheGet (cacheSet store d ps now) d t).1 = some ps) := by
  refine ⟨uniqueDomains_set store d ps now h, uniqueDomains_delete store d h,
    uniqueDomains_get store d t h, List.nodup_nil, dbLookup_set store d ps now, ?_⟩
  intro hfresh
  simp only [cacheGet, dbLookup_set store d ps now]
  rw [if_pos hfresh]

/-- Witness for C6: overwriting the single row for `a.com` keeps the
store duplicate-free, stores the new list with the new timestamp, and a
fresh `get` one second later observes the new list. -/
theorem c6_cache_upsert_unique_witness :
    uniqueDomains (cacheSet [CacheRow.mk "a.com" ["p"] 0] "a.com" ["q"] 10)
  ∧ dbLookup (cacheSet [CacheRow.mk "a.com" ["p"] 0] "a.com" ["q"] 10) "a.com"
      = some (CacheRow.mk "a.com" ["q"] 10)
  ∧ (cacheGet (cacheSet [CacheRow.mk "a.com" ["p"] 0] "a.com" ["q"] 10) "a.com" 11).1
      = some ["q"] := by
  obtain ⟨h1, h2, h3, h4, h5, h6⟩ :=
    c6_cache_upsert_unique [CacheRow.mk "a.com" ["p"] 0] "a.com" ["q"] 10 11 (by decide)
  exact ⟨h1, h5, h6 (by decide)⟩

/-- C5: when the fetch produces zero URLs and the cache has no usable
entry for the normalized domain (no row, or a stored empty list), `scan`
takes the fetch path, reports the "no data found" error and ends in
`typer.Exit(code=1)` — a designed non-zero exit, not an unhandled
failure. -/
theorem c5_scan_no_urls_exits (store : Store) (raw : String) (fetched : List String)
    (wordlist : WordlistFile) (now : Int)
    (hf : fetched = [])
    (hc : (cacheGet store (normalizeDomain raw) now).1 = none ∨
          (cacheGet store (normalizeDomain raw) now).1 = some []) :
    ∃ c, (scan store raw fetched wordlist now).1 = .exitWith c ∧ c ≠ 0 := by
  refine ⟨1, ?_, by omega⟩
  subst hf
  rcases hc with h | h
  · simp [scan, h, scanFetchPath]
  · simp [scan, h, scanFetchPath]

/-- Witness for C5: an empty cache and an empty fetch result for
`example.com` end the scan with a non-zero exit code. -/
theorem c5_scan_no_urls_exits_witness :
    (cacheGet [] (normalizeDomain "example.com") 0).1 = none
  ∧ ∃ c, (scan [] "example.com" [] .absent 0).1 = .exitWith c ∧ c ≠ 0 := by
  exact ⟨rfl, c5_scan_no_urls_exits [] "example.com" [] .absent 0 rfl (Or.inl rfl)⟩

theorem scanFetchPath_flag (s : Store) (d : String) (f : List String) (w : WordlistFile)
    (n : Int) : (scanFetchPath s d f w n).2.2 = true := by
  unfold scanFetchPath
  split
  · rfl
  · rfl

/-- C10: `if cached_params:` is Python truthiness, so a fresh cache
entry holding the empty list does not short-circuit the scan: the scan
behaves exactly as the fetch path (a fresh archive fetch is performed),
while a fresh non-empty cached list is printed as-is with no fetch. -/
theorem c10_empty_cached_list_refetches (store : Store) (raw : String) (fetched : List String)
    (wordlist : WordlistFile) (now : Int) :
    ((cacheGet store (normalizeDomain raw) now).1 = some [] →
      scan store raw fetched wordlist now =
        scanFetchPath (cacheGet store (normalizeDomain raw) now).2 (normalizeDomain raw)
          fetched wordlist now
      ∧ (scan store raw fetched wordlist now).2.2 = true)
  ∧ (∀ ps, (cacheGet store (normalizeDomain raw) now).1 = some ps → ps ≠ [] →
      scan store raw fetched wordlist now =
        (.printedList ps, (cacheGet store (normalizeDomain raw) now).2, false)) := by
  constructor
  · intro h
    have heq : scan store raw fetched wordlist now =
        scanFetchPath (cacheGet store (normalizeDomain raw) now).2 (normalizeDomain raw)
          fetched wordlist now := by
      simp [scan, h]
    refine ⟨heq, ?_⟩
    rw [heq]
    exact scanFetchPath_flag _ _ _ _ _
  · intro ps h hne
    cases ps with
    | nil => exact absurd rfl hne
    | cons p ps2 => simp [scan, h]

/-- Witness for C10: a fresh entry for `example.com` whose stored list
is empty leads to a fetch (flag set, fetch-path behavior), while a fresh
entry holding `["a"]` is served from the cache with no fetch. -/
theorem c10_empty_cached_list_refetches_witness :
    (cacheGet [CacheRow.mk "example.com" [] 0] (normalizeDomain "example.com") 5).1 = some []
  ∧ scan [CacheRow.mk "example.com" [] 0] "example.com" ["https://example.com/a?x=1"]
      (.valid ["b"]) 5 =
      scanFetchPath
        (cacheGet [CacheRow.mk "example.com" [] 0] (normalizeDomain "example.com") 5).2
        (normalizeDomain "example.com") ["https://example.com/a?x=1"] (.valid ["b"]) 5
  ∧ (scan [CacheRow.mk "example.com" [] 0] "example.com" ["https://example.com/a?x=1"]
      (.valid ["b"]) 5).2.2 = true
  ∧ scan [CacheRow.mk "example.com" ["a"] 0] "example.com" [] .absent 5 =
      (.printedList ["a"],
       (cacheGet [CacheRow.mk "example.com" ["a"] 0] (normalizeDomain "example.com") 5).2,
       false) := by
  obtain ⟨h1, h2⟩ := c10_empty_cached_list_refetches [CacheRow.mk "example.com" [] 0]
    "example.com" ["https://example.com/a?x=1"] (.valid ["b"]) 5
  obtain ⟨ha, hb⟩ := h1 (by decide)
  refine ⟨by decide, ha, hb, ?_⟩
  exact (c10_empty_cached_list_refetches [CacheRow.mk "example.com" ["a"] 0] "example.com"
    [] .absent 5).2 ["a"] (by decide) (by decide)

theorem insertIfAbsent_nodup (xs : List String) (u : String) (h : xs.Nodup) :
    (insertIfAbsent xs u).Nodup := by
  unfold insertIfAbsent
  split
  · exact h
  · rename_i hc
    rw [List.nodup_append]
    refine ⟨h, List.nodup_singleton _, ?_⟩
    intro x hx hx2
    simp only [List.mem_singleton] at hx2
    subst hx2
    exact hc (List.elem_eq_true_of_mem hx)

theorem foldl_insertIfAbsent_nodup (xs : List String) :
    ∀ acc : List String, acc.Nodup → (xs.foldl insertIfAbsent acc).Nodup := by
  induction xs with
  | nil => intro acc h; exact h
  | cons x rest ih => intro acc h; exact ih _ (insertIfAbsent_nodup acc x h)

theorem dedupList_nodup (xs : List String) : (dedupList xs).Nodup :=
  foldl_insertIfAbsent_nodup xs [] List.nodup_nil

/-- C9: the extractor returns the distinct query-string keys of the URL
with repeated keys collapsed and values discarded — on
`https://x.com/path?a=1&b=2&a=3` exactly `{a, b}` — its result never
holds a duplicate, and a URL with no query component yields the empty
set (the extractor is total, so nothing is raised). -/
theorem c9_extract_distinct_keys (url : String) :
    extract_params_from_url "https://x.com/path?a=1&b=2&a=3" = ["a", "b"]
  ∧ (queryOf url = none → extract_params_from_url url = [])
  ∧ (extract_params_from_url url).Nodup
  ∧ extract_params_from_url "https://x.com/path" = [] := by
  refine ⟨by decide, ?_, ?_, by decide⟩
  · intro h
    simp [extract_params_from_url, h]
  · unfold extract_params_from_url
    split
    · exact List.nodup_nil
    · exact dedupList_nodup _

/-- Witness for C9: `https://x.com/path` has no query component and the
extractor returns the empty set on it. -/
theorem c9_extract_distinct_keys_witness :
    queryOf "https://x.com/path" = none
  ∧ extract_params_from_url "https://x.com/path" = [] :=
  ⟨rfl, (c9_extract_distinct_keys "https://x.com/path").2.1 rfl⟩
